import Mathlib

/-!
Shallow embedding of the vmt VM lifecycle manager.

Source files embedded here:
  * `src/vmt/vm.py`       — `VMManager` (`up`, `destroy`, `get_info`),
    `generate_domain_xml`, `_grant_qemu_access`, `_vm_dir`, `_wait_for_ip`,
    `_get_ip`, `_cleanup_existing_domain`, the image-download block of `up`.
  * `src/vmt/manifest.py` — `load_vm_manifest`, `find_manifest`.

External systems (libvirt, the filesystem, `setfacl`, `qemu-img`,
`cloud-localds`, the network, SSH) are modelled as explicit state
(`World`) plus an environment of outcomes (`Env`).  Python exceptions
become the `PyExc` sum type; a stateful call returns its final state
together with `Except PyExc α`, mirroring the fact that a raising Python
call still keeps the side effects it performed before raising.
-/

namespace Vmt

/-- Python exception taxonomy, restricted to the exception classes the
embedded code can raise or catch. -/
inductive PyExc where
  | fileNotFoundError
  | keyError
  | valueError (msg : String)
  | libvirtError
  | calledProcessError
  | urlError
  | timeoutError (domain : String) (timeout : Nat)
  deriving DecidableEq

/-- State of an on-disk entry: a directory, a completely written file, or a
partially written (interrupted-transfer) file.  Python's `Path.exists`
cannot tell `.file` from `.partialFile` apart. -/
inductive FState where
  | dir
  | file
  | partialFile
  deriving DecidableEq

/-- The filesystem: which paths exist, and in which state. -/
abbrev FS := List (String × FState)

/-- Hypervisor-side state of a defined domain (libvirt's
`VIR_DOMAIN_RUNNING` versus any non-running state of a defined domain). -/
inductive DomState where
  | running
  | shutoff
  deriving DecidableEq

/-- The hypervisor's set of defined domains, in definition order.
libvirt keeps domain names unique; theorems that need this carry a
`Nodup` hypothesis on the name column. -/
abbrev LV := List (String × DomState)

/-- The mutable world the manager acts on: host filesystem, hypervisor
domain table, and a monotonic clock (seconds). -/
structure World where
  fs : FS
  lv : LV
  clock : Nat

/-- `addr.get("type")`/`addr["addr"]` record from
`dom.interfaceAddresses`. -/
inductive AddrType where
  | ipv4
  | ipv6
  deriving DecidableEq

structure Addr where
  type : AddrType
  addr : String
  deriving DecidableEq

/-- Per-path-component facts consulted by `_grant_qemu_access`
(`p.is_dir()` and `st.st_mode & 0o001`). -/
structure PathComp where
  isDir : Bool
  otherExec : Bool
  deriving DecidableEq

/-- Outcome of one `urllib.request.urlretrieve` transfer. -/
inductive FetchOutcome where
  | ok
  | interrupted
  deriving DecidableEq

/-- Behaviour of the external collaborators during one run: transfer and
tool outcomes, `setfacl` success per path component, DHCP lease replies
over time, SSH readiness, and the SPICE port the hypervisor reports. -/
structure Env where
  fetch : FetchOutcome
  qemuImgOk : Bool
  isoToolOk : Bool
  pubkey : Option String
  setfaclOk : Nat → Bool
  pathComps : String → List PathComp
  leases : Nat → Except PyExc (List (List Addr))
  sshOk : Bool
  spicePort : Option Nat

/-- The info dict returned by `VMManager.up` / `VMManager.get_info`. -/
structure Info where
  name : String
  domain : String
  ip : Option String
  ssh_user : String
  ssh_port : Nat
  spice_port : Option Nat
  deriving DecidableEq

/-! ### Manifests (`src/vmt/manifest.py`) -/

/-- The `[vm]` table of a parsed manifest TOML file. -/
structure TomlVmSec where
  name : Option String := none
  image : Option String := none
  memory : Option Nat := none
  cpus : Option Nat := none
  disk : Option Nat := none

/-- The `[provision]` table.  Only the fields the embedded code reads. -/
structure TomlProvSec where
  packages : Option (List String) := none
  compositor_cmd : Option String := none
  env : Option (List (String × String)) := none

/-- The `[ssh]` table. -/
structure TomlSshSec where
  user : Option String := none
  port : Option Nat := none

/-- A parsed manifest TOML document (presence of each section mirrors
`section in data`). -/
structure TomlData where
  vm : Option TomlVmSec := none
  provision : Option TomlProvSec := none
  ssh : Option TomlSshSec := none

/-- A manifest as returned by `load_vm_manifest`: required fields
present, defaults applied.  `ssh_user`/`ssh_port` stay optional — the
loader does not require them (`ssh_cfg["user"]` / `.get("port", 22)` are
read later by the callers). -/
structure Manifest where
  vm_name : String
  image : String
  memory : Nat
  cpus : Nat
  disk : Nat
  ssh_user : Option String
  ssh_port : Option Nat
  packages : Option (List String)
  compositor_cmd : Option String
  provision_env : List (String × String)

/-- `manifest.load_vm_manifest`: validate required sections
`[vm]`, `[provision]`, `[ssh]` (in that order), required vm fields
`name`, `image` (in that order), then apply the defaults
`memory=2048`, `cpus=2`, `disk=10` and `provision.env={}`. -/
def load_vm_manifest (d : TomlData) : Except PyExc Manifest :=
  match d.vm with
  | none => .error (.valueError "Missing required section: [vm]")
  | some vmSec =>
    match d.provision with
    | none => .error (.valueError "Missing required section: [provision]")
    | some provSec =>
      match d.ssh with
      | none => .error (.valueError "Missing required section: [ssh]")
      | some sshSec =>
        match vmSec.name with
        | none => .error (.valueError "Missing required vm field: name")
        | some nm =>
          match vmSec.image with
          | none => .error (.valueError "Missing required vm field: image")
          | some img =>
            .ok { vm_name := nm
                  image := img
                  memory := vmSec.memory.getD 2048
                  cpus := vmSec.cpus.getD 2
                  disk := vmSec.disk.getD 10
                  ssh_user := sshSec.user
                  ssh_port := sshSec.port
                  packages := provSec.packages
                  compositor_cmd := provSec.compositor_cmd
                  provision_env := provSec.env.getD [] }

/-- `manifest.find_manifest` combined with opening the found file:
`manifestAt name` is the parsed content of the first `{name}.toml` found
across the manager's search directories, `none` when no directory has
one (then `FileNotFoundError` is raised). -/
def find_manifest (manifestAt : String → Option TomlData) (name : String) :
    Except PyExc TomlData :=
  match manifestAt name with
  | some d => .ok d
  | none => .error .fileNotFoundError

/-! ### Filesystem helpers -/

/-- `Path.exists` over the modelled filesystem (a partially written file
exists just as a complete one does). -/
def existsPath (fs : FS) (p : String) : Bool :=
  fs.any (fun q => q.1 == p)

/-- Create or overwrite a plain entry at `p`. -/
def setEntry (fs : FS) (p : String) (st : FState) : FS :=
  (p, st) :: fs.filter (fun q => q.1 != p)

/-- `mkdir(exist_ok=True)` for one directory. -/
def mkdirOne (fs : FS) (p : String) : FS :=
  if existsPath fs p then fs else (p, .dir) :: fs

/-- `mkdir(parents=True, exist_ok=True)` along an explicit chain of
ancestors ending at the target directory. -/
def mkdirChain (fs : FS) (chain : List String) : FS :=
  chain.foldl mkdirOne fs

/-- `shutil.rmtree`: delete `p` and everything below it. -/
def rmtree (fs : FS) (p : String) : FS :=
  fs.filter (fun q => !(q.1 == p || (p ++ "/").isPrefixOf q.1))

/-- `~/.cache/vmt/images` (`_IMAGES_DIR` in `vm.py`). -/
def imagesDir : String := "~/.cache/vmt/images"

/-- Ancestor chain created by `_IMAGES_DIR.mkdir(parents=True, ...)`. -/
def imagesDirChain : List String :=
  ["~/.cache", "~/.cache/vmt", "~/.cache/vmt/images"]

/-- Workspace directory path for a VM name (`_vm_dir`'s `d`). -/
def vmDirPath (name : String) : String :=
  "~/.cache/vmt/vms/" ++ name

/-- `_vm_dir`: per-VM working directory; creates it (and parents) if it
does not exist, and returns its path. -/
def vm_dir (fs : FS) (name : String) : FS × String :=
  (mkdirChain fs ["~/.cache", "~/.cache/vmt", "~/.cache/vmt/vms", vmDirPath name],
   vmDirPath name)

/-! ### Image cache (`up` step 2, `vm.py` lines 214–222) -/

/-- `image_url.rsplit("/", 1)[-1] if "/" in image_url else image_url`:
the characters after the last `/`, or the whole string when it has no
`/` (the two Python branches agree with this single description). -/
def lastSegment (url : String) : String :=
  ⟨(url.data.reverse.takeWhile (fun c => c ≠ '/')).reverse⟩

/-- `urllib.request.urlretrieve(url, path)`: writes directly to `path`.
On success the complete file sits at `path`; an interrupted transfer
raises, leaving a partially written file at that same final path (no
temporary name, no cleanup). -/
def urlretrieve (outcome : FetchOutcome) (fs : FS) (path : String) :
    FS × Except PyExc Unit :=
  match outcome with
  | .ok => (setEntry fs path .file, .ok ())
  | .interrupted => (setEntry fs path .partialFile, .error .urlError)

/-- The image-download block of `up` (step 2): ensure the cache
directory, derive the cache filename from the URL's trailing segment,
reuse an existing file of that name, otherwise fetch. -/
def resolve_image (outcome : FetchOutcome) (fs : FS) (image_url : String) :
    FS × Except PyExc String :=
  let fs1 := mkdirChain fs imagesDirChain
  let base_image := imagesDir ++ "/" ++ lastSegment image_url
  if existsPath fs1 base_image then
    (fs1, .ok base_image)
  else
    match urlretrieve outcome fs1 base_image with
    | (fs2, .ok _) => (fs2, .ok base_image)
    | (fs2, .error e) => (fs2, .error e)

/-! ### External tool invocations (`up` steps 3–4) -/

/-- `VMManager._create_overlay_disk`: `qemu-img create` either writes
the overlay or raises `CalledProcessError` (`check=True`). -/
def create_overlay_disk (toolOk : Bool) (fs : FS) (overlay : String) :
    FS × Except PyExc Unit :=
  if toolOk then (setEntry fs overlay .file, .ok ())
  else (fs, .error .calledProcessError)

/-- `connect.get_ssh_pubkey`: the discovered public key, or
`FileNotFoundError` when no key pair is found. -/
def get_ssh_pubkey (pubkey : Option String) : Except PyExc String :=
  match pubkey with
  | some k => .ok k
  | none => .error .fileNotFoundError

/-- `provision.generate_user_data`: reads `manifest["ssh"]["user"]`,
`provision["packages"]` and `provision["compositor_cmd"]` — a missing
one raises `KeyError`.  The document text itself is irrelevant to every
claim and is abstracted to a constant header. -/
def generate_user_data (m : Manifest) (_pubkey : String) :
    Except PyExc String :=
  match m.ssh_user with
  | none => .error .keyError
  | some _ =>
    match m.packages with
    | none => .error .keyError
    | some _ =>
      match m.compositor_cmd with
      | none => .error .keyError
      | some _ => .ok "#cloud-config"

/-- `provision.create_cloud_init_iso`: `cloud-localds` either writes the
seed ISO or raises `CalledProcessError`. -/
def create_cloud_init_iso (toolOk : Bool) (fs : FS) (path : String) :
    FS × Except PyExc Unit :=
  if toolOk then (setEntry fs path .file, .ok ())
  else (fs, .error .calledProcessError)

/-! ### Hypervisor domain operations -/

/-- `self._conn.lookupByName(n)`: the state of the (first) domain named
`n`, or `none` when the lookup raises `libvirtError` because no such
domain exists. -/
def lookupByName (lv : LV) (n : String) : Option DomState :=
  (lv.find? (fun p => p.1 == n)).map Prod.snd

/-- Set the state of the first domain named `n` (the object the looked-up
handle refers to). -/
def setDomState (lv : LV) (n : String) (st : DomState) : LV :=
  match lv with
  | [] => []
  | p :: rest =>
    if p.1 == n then (p.1, st) :: rest else p :: setDomState rest n st

/-- `dom.undefine()` on the handle for `n`: remove the first domain of
that name from the hypervisor's table. -/
def undefineDom (lv : LV) (n : String) : LV :=
  lv.eraseP (fun p => p.1 == n)

/-- `VMManager._cleanup_existing_domain`: look the name up (absent ⇒
return unchanged), `destroy` it if it is running, then `undefine` it;
hypervisor errors of the two sub-steps are swallowed. -/
def cleanup_existing_domain (lv : LV) (dn : String) : LV :=
  match lookupByName lv dn with
  | none => lv
  | some st =>
    let lv1 := if st = .running then setDomState lv dn .shutoff else lv
    undefineDom lv1 dn

/-- `self._conn.defineXML(xml)`: define a new, not-yet-running domain
named `dn` (the `<name>` of the generated document); fails when a domain
of that name is already defined. -/
def defineXML (lv : LV) (dn : String) : Except PyExc LV :=
  if (lookupByName lv dn).isSome then .error .libvirtError
  else .ok (lv ++ [(dn, .shutoff)])

/-- `dom.create()`: start the freshly defined domain. -/
def createDom (lv : LV) (dn : String) : LV :=
  setDomState lv dn .running

/-! ### Address polling (`_get_ip`, `_wait_for_ip`) -/

/-- The nested loop of `_get_ip`: first address of type IPv4, scanning
interfaces in order and each interface's address list in order. -/
def first_ipv4 (ifaces : List (List Addr)) : Option String :=
  match ifaces with
  | [] => none
  | iface :: rest =>
    match iface.find? (fun a => a.type == AddrType.ipv4) with
    | some a => some a.addr
    | none => first_ipv4 rest

/-- `VMManager._get_ip`: query the DHCP leases; a `libvirtError` from the
query is swallowed and reported as `none`, otherwise return the first
IPv4 address, if any. -/
def get_ip (leasesResult : Except PyExc (List (List Addr))) : Option String :=
  match leasesResult with
  | .error _ => none
  | .ok ifaces => first_ipv4 ifaces

/-- The `while` loop of `VMManager._wait_for_ip`.  `t` is the current
monotonic clock; each failed poll sleeps 2 seconds.  Returns the clock at
which the loop exits together with the found address or the raised
`TimeoutError` (which carries the domain name and the timeout). -/
def wait_for_ip_loop (leases : Nat → Except PyExc (List (List Addr)))
    (domName : String) (timeout : Nat) (deadline : Nat) (t : Nat) :
    Nat × Except PyExc String :=
  if t < deadline then
    match get_ip (leases t) with
    | some ip => (t, .ok ip)
    | none => wait_for_ip_loop leases domName timeout deadline (t + 2)
  else
    (t, .error (.timeoutError domName timeout))
termination_by deadline - t
decreasing_by omega

/-- `VMManager._wait_for_ip` (default `timeout=60`): poll from the
current clock against `deadline = clock + timeout`. -/
def wait_for_ip (leases : Nat → Except PyExc (List (List Addr)))
    (domName : String) (timeout : Nat) (clock : Nat) :
    Nat × Except PyExc String :=
  wait_for_ip_loop leases domName timeout (clock + timeout) clock

/-- `SSHClient.wait_until_ready` as seen from `up` step 8: either the
shell handshake eventually succeeds or a `TimeoutError` escapes after the
default 300 s. -/
def ssh_wait (sshOk : Bool) (host : String) : Except PyExc Unit :=
  if sshOk then .ok () else .error (.timeoutError host 300)

/-! ### ACL grants (`_grant_qemu_access`) -/

/-- One `subprocess.run(["setfacl", ...], check=True)` call: raises
`CalledProcessError` when the tool fails. -/
def setfacl_run (ok : Bool) : Except PyExc Unit :=
  if ok then .ok () else .error .calledProcessError

/-- The `for p in parts` loop of `_grant_qemu_access` over the resolved
path's components (root first, target last), numbered from `i`.
Components that are not directories, or already have other-execute, are
skipped.  For the rest a `setfacl` grant is attempted — `"rx"` on the
final component, `"x"` on ancestors; a `CalledProcessError` from the
tool is caught and turned into a warning (any other exception would
propagate).  Returns the issued grants and the warned component indices,
in walk order. -/
def grant_walk (ok : Nat → Bool) :
    List PathComp → Nat → List (Nat × String) × List Nat
  | [], _ => ([], [])
  | c :: rest, i =>
    if c.isDir && !c.otherExec then
      let perm := if rest.isEmpty then "rx" else "x"
      let tail := grant_walk ok rest (i + 1)
      match setfacl_run (ok i) with
      | .ok _ => ((i, perm) :: tail.1, tail.2)
      | .error _ => (tail.1, i :: tail.2)
    else
      grant_walk ok rest (i + 1)

/-- `_grant_qemu_access` on a full path: walk all components starting at
index 0. -/
def grant_qemu_access (ok : Nat → Bool) (comps : List PathComp) :
    List (Nat × String) × List Nat :=
  grant_walk ok comps 0

/-! ### Domain XML generation (`generate_domain_xml`) -/

/-- `vm.generate_domain_xml`: the dedented f-string template of
`vm.py`, with `memory_kib = memory_mb * 1024` and the domain name
`vmt-{name}`.  Pure: its output depends on nothing but the five
arguments. -/
def generate_domain_xml (name : String) (memory_mb : Nat) (cpus : Nat)
    (disk_path : String) (cloud_init_iso : String) : String :=
  let memory_kib := memory_mb * 1024
  "<domain type='kvm'>\n  <name>vmt-" ++ name
    ++ "</name>\n  <memory unit='KiB'>" ++ toString memory_kib
    ++ "</memory>\n  <vcpu>" ++ toString cpus
    ++ "</vcpu>\n  <os>\n    <type arch='x86_64' machine='q35'>hvm</type>\n    <boot dev='hd'/>\n  </os>\n  <features>\n    <acpi/>\n    <apic/>\n  </features>\n  <devices>\n    <disk type='file' device='disk'>\n      <driver name='qemu' type='qcow2'/>\n      <source file='"
    ++ disk_path
    ++ "'/>\n      <target dev='vda' bus='virtio'/>\n    </disk>\n    <disk type='file' device='cdrom'>\n      <driver name='qemu' type='raw'/>\n      <source file='"
    ++ cloud_init_iso
    ++ "'/>\n      <target dev='sda' bus='sata'/>\n      <readonly/>\n    </disk>\n    <interface type='network'>\n      <source network='default'/>\n      <model type='virtio'/>\n    </interface>\n    <graphics type='spice' autoport='yes' listen='127.0.0.1'/>\n    <video>\n      <model type='virtio'/>\n    </video>\n    <channel type='spicevmc'>\n      <target type='virtio' name='com.redhat.spice.0'/>\n    </channel>\n    <serial type='pty'>\n      <target port='0'/>\n    </serial>\n    <console type='pty'>\n      <target type='serial' port='0'/>\n    </console>\n  </devices>\n</domain>\n"

/-! ### The public API: `up`, `destroy`, `get_info` -/

/-- `VMManager.up`: the full boot sequence, steps 1–9 of `vm.py`.
`manifestAt` stands for the manager's search directories (see
`find_manifest`).  Any step's exception aborts `up` with the side
effects performed so far kept (no rollback). -/
def up (env : Env) (manifestAt : String → Option TomlData) (w : World)
    (name : String) : World × Except PyExc Info :=
  -- 1. Load manifest
  match find_manifest manifestAt name with
  | .error e => (w, .error e)
  | .ok data =>
  match load_vm_manifest data with
  | .error e => (w, .error e)
  | .ok m =>
  let vm_name := m.vm_name
  match m.ssh_user with
  | none => (w, .error .keyError)  -- ssh_cfg["user"]
  | some ssh_user =>
  let ssh_port := m.ssh_port.getD 22
  -- 2. Download cloud image
  match resolve_image env.fetch w.fs m.image with
  | (fs2, .error e) => ({ w with fs := fs2 }, .error e)
  | (fs2, .ok _base_image) =>
  -- 3. Create overlay disk
  let (fs3, workdir) := vm_dir fs2 vm_name
  let overlay := workdir ++ "/disk.qcow2"
  match create_overlay_disk env.qemuImgOk fs3 overlay with
  | (fs4, .error e) => ({ w with fs := fs4 }, .error e)
  | (fs4, .ok _) =>
  -- 4. Generate cloud-init ISO
  match get_ssh_pubkey env.pubkey with
  | .error e => ({ w with fs := fs4 }, .error e)
  | .ok pk =>
  match generate_user_data m pk with
  | .error e => ({ w with fs := fs4 }, .error e)
  | .ok _user_data =>
  let ci_iso := workdir ++ "/seed.iso"
  match create_cloud_init_iso env.isoToolOk fs4 ci_iso with
  | (fs5, .error e) => ({ w with fs := fs5 }, .error e)
  | (fs5, .ok _) =>
  -- 5. Grant QEMU user access via ACLs (warnings only, never raises)
  let _g1 := grant_qemu_access env.setfaclOk (env.pathComps imagesDir)
  let _g2 := grant_qemu_access env.setfaclOk (env.pathComps workdir)
  -- 6. Define and start domain
  let domain_name := "vmt-" ++ vm_name
  let lv1 := cleanup_existing_domain w.lv domain_name
  let _xml := generate_domain_xml vm_name m.memory m.cpus overlay ci_iso
  match defineXML lv1 domain_name with
  | .error e => ({ fs := fs5, lv := lv1, clock := w.clock }, .error e)
  | .ok lv2 =>
  let lv3 := createDom lv2 domain_name
  -- 7. Wait for IP
  match wait_for_ip env.leases domain_name 60 w.clock with
  | (t1, .error e) => ({ fs := fs5, lv := lv3, clock := t1 }, .error e)
  | (t1, .ok ip) =>
  -- 8. Wait for SSH
  match ssh_wait env.sshOk ip with
  | .error e => ({ fs := fs5, lv := lv3, clock := t1 }, .error e)
  | .ok _ =>
  -- 9. Return info
  ({ fs := fs5, lv := lv3, clock := t1 },
   .ok { name := vm_name, domain := domain_name, ip := some ip,
         ssh_user := ssh_user, ssh_port := ssh_port,
         spice_port := env.spicePort })

/-- `VMManager.destroy`: destroy+undefine the domain (best-effort), then
remove the working directory if it exists.  Note `_vm_dir` creates the
directory as a side effect of computing its path. -/
def destroy (w : World) (name : String) : World × Except PyExc Unit :=
  let domain_name := "vmt-" ++ name
  let lv1 := cleanup_existing_domain w.lv domain_name
  let (fs1, workdir) := vm_dir w.fs name
  if existsPath fs1 workdir then
    ({ fs := rmtree fs1 workdir, lv := lv1, clock := w.clock }, .ok ())
  else
    ({ fs := fs1, lv := lv1, clock := w.clock }, .ok ())

/-- `VMManager.get_info`: `none` for an absent or non-running domain;
otherwise a fresh info dict from live queries.  SSH user/port are
re-read from the manifest, with `FileNotFoundError`/`KeyError` from that
lookup swallowed in favour of the fixed `root`/`22` fallback; any other
exception (notably the loader's `ValueError`) propagates. -/
def get_info (env : Env) (manifestAt : String → Option TomlData)
    (w : World) (name : String) : Except PyExc (Option Info) :=
  let domain_name := "vmt-" ++ name
  match lookupByName w.lv domain_name with
  | none => .ok none
  | some st =>
  if st ≠ .running then .ok none
  else
    let ip := get_ip (env.leases w.clock)
    let spice_port := env.spicePort
    match (match find_manifest manifestAt name with
           | .error e => Except.error e
           | .ok data => load_vm_manifest data) with
    | .ok m =>
      .ok (some { name := name, domain := domain_name, ip := ip,
                  ssh_user := m.ssh_user.getD "root",
                  ssh_port := m.ssh_port.getD 22,
                  spice_port := spice_port })
    | .error .fileNotFoundError =>
      .ok (some { name := name, domain := domain_name, ip := ip,
                  ssh_user := "root", ssh_port := 22,
                  spice_port := spice_port })
    | .error .keyError =>
      .ok (some { name := name, domain := domain_name, ip := ip,
                  ssh_user := "root", ssh_port := 22,
                  spice_port := spice_port })
    | .error e => .error e

/-! ## Helper lemmas -/

theorem existsPath_mkdirOne_self (fs : FS) (p : String) :
    existsPath (mkdirOne fs p) p = true := by
  unfold mkdirOne
  split
  · assumption
  · exact (by simp [existsPath] : existsPath ((p, FState.dir) :: fs) p = true)

theorem vm_dir_exists (fs : FS) (name : String) :
    existsPath (vm_dir fs name).1 (vm_dir fs name).2 = true := by
  simp only [vm_dir, mkdirChain, List.foldl]
  exact existsPath_mkdirOne_self _ _

theorem not_mem_rmtree (fs : FS) (p : String) (st : FState) :
    (p, st) ∉ rmtree fs p := by
  intro h
  simp only [rmtree, List.mem_filter] at h
  simp at h

/-! ## C7 — `destroy` on a never-provisioned name -/

/-- C7: `destroy(name)` called on a name for which `up` was never run
(no domain `vmt-{name}`, no workspace directory) raises no exception,
and after it returns no workspace directory for that name exists. -/
theorem destroy_never_provisioned (w : World) (name : String)
    (_hdom : lookupByName w.lv ("vmt-" ++ name) = none)
    (_hws : ∀ st, (vmDirPath name, st) ∉ w.fs) :
    ∃ w', destroy w name = (w', .ok ()) ∧
      ∀ st, (vmDirPath name, st) ∉ w'.fs := by
  unfold destroy
  have hex := vm_dir_exists w.fs name
  simp only [vm_dir] at hex ⊢
  simp only [hex, if_true]
  exact ⟨_, rfl, fun st h => not_mem_rmtree _ _ st h⟩

/-- C7 witness: a concrete empty world. -/
theorem destroy_never_provisioned_witness :
    ∃ w', destroy ⟨[], [], 0⟩ "x" = (w', .ok ()) ∧
      ∀ st, (vmDirPath "x", st) ∉ w'.fs :=
  destroy_never_provisioned ⟨[], [], 0⟩ "x" rfl (by simp)

/-! ## C2 — interrupted image fetch leaves a partial file visible -/

/-- C2 (code bug): with an empty cache, an interrupted transfer of
`http://h/base.qcow2` raises the fetch error but leaves a half-written
file visible under the final cache filename — and a later call with the
same reference then mistakes the partial download for a cache hit and
returns it unchanged.  This evaluates the source's direct-write download
block (`vm.py` lines 214–222) at the failing input. -/
theorem resolve_image_partial_file_visible :
    (resolve_image .interrupted [] "http://h/base.qcow2").2
        = .error .urlError ∧
    ("~/.cache/vmt/images/base.qcow2", FState.partialFile)
        ∈ (resolve_image .interrupted [] "http://h/base.qcow2").1 ∧
    resolve_image .ok (resolve_image .interrupted [] "http://h/base.qcow2").1
        "http://h/base.qcow2"
      = ((resolve_image .interrupted [] "http://h/base.qcow2").1,
         .ok "~/.cache/vmt/images/base.qcow2") :=
  ⟨rfl, by decide, rfl⟩

/-! ## C8 — `grantTraversal` grant pattern -/

/-- The amended claim's description of `grantTraversal`, written from its
words: one `"x"` grant per non-world-executable directory component that
is not the final one, an `"rx"` grant on the final component when that
component itself is a non-world-executable directory, nothing for
world-executable or non-directory components; failed grant calls become
warnings instead of grants. -/
def grants_spec (ok : Nat → Bool) (comps : List PathComp) :
    List (Nat × String) × List Nat :=
  ((comps.enum.filter
        (fun ic => ic.2.isDir && !ic.2.otherExec && ok ic.1)).map
      (fun ic => (ic.1, if ic.1 + 1 = comps.length then "rx" else "x")),
   (comps.enum.filter
        (fun ic => ic.2.isDir && !ic.2.otherExec && !(ok ic.1))).map Prod.fst)

theorem grant_walk_eq_spec (ok : Nat → Bool) :
    ∀ (comps : List PathComp) (i : Nat),
      grant_walk ok comps i =
        (((comps.enumFrom i).filter
              (fun ic => ic.2.isDir && !ic.2.otherExec && ok ic.1)).map
            (fun ic => (ic.1, if ic.1 + 1 = i + comps.length then "rx" else "x")),
         ((comps.enumFrom i).filter
              (fun ic => ic.2.isDir && !ic.2.otherExec && !(ok ic.1))).map Prod.fst)
  | [], _ => rfl
  | c :: rest, i => by
    have ih := grant_walk_eq_spec ok rest (i + 1)
    have harith : i + (c :: rest).length = (i + 1) + rest.length := by
      simp [List.length_cons]; omega
    by_cases hdir : (c.isDir && !c.otherExec) = true
    · by_cases hok : ok i = true
      · simp only [grant_walk, hdir, if_true, setfacl_run, hok, ih, harith,
          List.enumFrom, List.filter_cons, List.map_cons]
        simp only [hdir, hok, Bool.and_true, if_true]
        refine Prod.ext ?_ rfl
        simp only [List.map_cons]
        congr 1
        by_cases hr : rest = []
        · subst hr; simp
        · have h1 : rest.isEmpty = false := by
            cases rest with
            | nil => exact absurd rfl hr
            | cons a as => rfl
          have h2 : ¬ (i + 1 = i + 1 + rest.length) := by
            cases rest with
            | nil => exact absurd rfl hr
            | cons a as => simp
          simp [h1, h2]
      · have hok' : ok i = false := by
          cases h : ok i with
          | true => exact absurd h hok
          | false => rfl
        simp only [grant_walk, hdir, if_true, setfacl_run, hok', ih, harith,
          List.enumFrom, List.filter_cons, List.map_cons]
        simp [hdir, hok']
    · have hdir' : (c.isDir && !c.otherExec) = false := by
        cases h : (c.isDir && !c.otherExec) with
        | true => exact absurd h hdir
        | false => rfl
      simp only [grant_walk, hdir', Bool.false_eq_true, if_false, ih, harith,
        List.enumFrom, List.filter_cons]
      simp [hdir']

/-- C8 counterexample: a three-component path (all directories) whose
middle ancestor lacks world-execute but whose final component has it.
Not all components are world-executable, yet the walk issues exactly one
execute-only grant on the ancestor and *no* read+execute grant on the
final component — contradicting the claim's unconditional leaf grant. -/
theorem grant_traversal_claim_cex :
    (¬ ∀ c ∈ [PathComp.mk true true, PathComp.mk true false,
              PathComp.mk true true], c.otherExec = true) ∧
    grant_qemu_access (fun _ => true)
        [PathComp.mk true true, PathComp.mk true false, PathComp.mk true true]
      = ([(1, "x")], []) ∧
    ∀ e ∈ (grant_qemu_access (fun _ => true)
        [PathComp.mk true true, PathComp.mk true false,
         PathComp.mk true true]).1, e.2 ≠ "rx" := by
  refine ⟨by decide, rfl, by decide⟩

/-- C8 (amended): `grantTraversal` issues zero grant calls for a path
all of whose directory components already have world-execute; in
general it issues exactly one execute-only grant per non-world-executable
directory component except the final one, and one read+execute grant on
the final component when that component itself is a non-world-executable
directory; a failed grant call becomes a logged warning (returned here as
a warning index) and is never raised to the caller. -/
theorem grant_traversal_amended (ok : Nat → Bool) (comps : List PathComp) :
    grant_qemu_access ok comps = grants_spec ok comps ∧
    ((∀ c ∈ comps, c.isDir → c.otherExec = true) →
      (grant_qemu_access ok comps).1 = []) := by
  have hmain : grant_qemu_access ok comps = grants_spec ok comps := by
    unfold grant_qemu_access grants_spec
    rw [grant_walk_eq_spec]
    simp [List.enum]
  refine ⟨hmain, fun hall => ?_⟩
  rw [hmain]
  unfold grants_spec
  simp only [List.map_eq_nil_iff, List.filter_eq_nil_iff]
  intro ic hic h
  have hmem : ic.2 ∈ comps :=
    List.getElem?_mem (List.mem_enum_iff_getElem?.mp hic)
  simp only [Bool.and_eq_true] at h
  have hoe := hall ic.2 hmem h.1.1
  rw [hoe] at h
  simp at h

/-! ## C6 — `_wait_for_ip` timeout bounds -/

/-- If the lease source never yields an address, the polling loop exits
with the `TimeoutError` (carrying domain name and timeout) at a clock
`r` with `deadline ≤ r ≤ deadline + 1`; fuel `n` bounds the remaining
iterations. -/
theorem wait_loop_never_ip (leases : Nat → Except PyExc (List (List Addr)))
    (dn : String) (timeout d : Nat)
    (hnone : ∀ t, get_ip (leases t) = none) :
    ∀ (n t : Nat), d ≤ t + n → t ≤ d + 1 →
      ∃ r, wait_for_ip_loop leases dn timeout d t =
          (r, .error (.timeoutError dn timeout)) ∧ d ≤ r ∧ r ≤ d + 1
  | 0, t, h1, h2 => by
    unfold wait_for_ip_loop
    rw [if_neg (by omega : ¬ t < d)]
    exact ⟨t, rfl, by omega, h2⟩
  | n + 1, t, h1, h2 => by
    by_cases hlt : t < d
    · unfold wait_for_ip_loop
      rw [if_pos hlt, hnone t]
      exact wait_loop_never_ip leases dn timeout d hnone n (t + 2)
        (by omega) (by omega)
    · unfold wait_for_ip_loop
      rw [if_neg hlt]
      exact ⟨t, rfl, by omega, h2⟩

/-- C6: against a lease source that never reports an IPv4 address,
`_wait_for_ip` polls at its fixed 2-second interval and raises
`TimeoutError` (carrying the domain name and the timeout) with elapsed
time at least `timeout` and less than `timeout` plus one polling
interval. -/
theorem wait_for_ip_timeout_bounds
    (leases : Nat → Except PyExc (List (List Addr))) (dn : String)
    (timeout t0 : Nat) (hnone : ∀ t, get_ip (leases t) = none) :
    ∃ tEnd, wait_for_ip leases dn timeout t0 =
        (tEnd, .error (.timeoutError dn timeout)) ∧
      timeout ≤ tEnd - t0 ∧ tEnd - t0 < timeout + 2 := by
  obtain ⟨r, heq, hr1, hr2⟩ := wait_loop_never_ip leases dn timeout
    (t0 + timeout) hnone timeout t0 (by omega) (by omega)
  exact ⟨r, heq, by omega, by omega⟩

/-- C6 witness: the default 60-second timeout from clock 0 against an
always-empty lease table. -/
theorem wait_for_ip_timeout_bounds_witness :
    ∃ tEnd, wait_for_ip (fun _ => .ok []) "vmt-x" 60 0 =
        (tEnd, .error (.timeoutError "vmt-x" 60)) ∧
      60 ≤ tEnd - 0 ∧ tEnd - 0 < 60 + 2 :=
  wait_for_ip_timeout_bounds (fun _ => .ok []) "vmt-x" 60 0 (fun _ => rfl)

/-! ## C9 — hypervisor lease-query errors are swallowed -/

/-- A concrete environment with every collaborator healthy; witnesses
override single fields. -/
def baseEnv : Env :=
  { fetch := .ok
    qemuImgOk := true
    isoToolOk := true
    pubkey := some "ssh-ed25519 AAAA host"
    setfaclOk := fun _ => true
    pathComps := fun _ => []
    leases := fun _ => .ok [[⟨.ipv4, "192.168.122.50"⟩]]
    sshOk := true
    spicePort := none }

/-- C9: a `libvirtError` while querying DHCP leases is swallowed:
`_get_ip` returns `none` instead of propagating; `_wait_for_ip` hence
retries through such errors and surfaces them only as an eventual
`TimeoutError`; and `get_info` on a Running domain whose lease query
errors returns a descriptor whose `ip` is `none` rather than raising. -/
theorem lease_errors_swallowed :
    (∀ e, get_ip (.error e) = none) ∧
    (∀ (leases : Nat → Except PyExc (List (List Addr))) dn timeout t0,
        (∀ t, ∃ e, leases t = .error e) →
        ∃ tEnd, wait_for_ip leases dn timeout t0 =
            (tEnd, .error (.timeoutError dn timeout))) ∧
    (∀ (env : Env) (manifestAt : String → Option TomlData) (w : World)
        (name : String),
        lookupByName w.lv ("vmt-" ++ name) = some .running →
        (∃ e, env.leases w.clock = .error e) →
        (manifestAt name = none ∨
          ∃ d m, manifestAt name = some d ∧ load_vm_manifest d = .ok m) →
        ∃ info, get_info env manifestAt w name = .ok (some info) ∧
          info.ip = none) := by
  refine ⟨fun e => rfl, ?_, ?_⟩
  · intro leases dn timeout t0 herr
    have hnone : ∀ t, get_ip (leases t) = none := by
      intro t
      obtain ⟨e, he⟩ := herr t
      rw [he]
      rfl
    obtain ⟨r, heq, -, -⟩ := wait_loop_never_ip leases dn timeout
      (t0 + timeout) hnone timeout t0 (by omega) (by omega)
    exact ⟨r, heq⟩
  · intro env manifestAt w name hrun herr hman
    obtain ⟨e, he⟩ := herr
    have hip : get_ip (env.leases w.clock) = none := by rw [he]; rfl
    rcases hman with h | ⟨d, m, hd, hm⟩
    · have hres : get_info env manifestAt w name =
          .ok (some { name := name, domain := "vmt-" ++ name, ip := none,
                      ssh_user := "root", ssh_port := 22,
                      spice_port := env.spicePort }) := by
        unfold get_info
        simp [hrun, find_manifest, h, hip]
      exact ⟨_, hres, rfl⟩
    · have hres : get_info env manifestAt w name =
          .ok (some { name := name, domain := "vmt-" ++ name, ip := none,
                      ssh_user := m.ssh_user.getD "root",
                      ssh_port := m.ssh_port.getD 22,
                      spice_port := env.spicePort }) := by
        unfold get_info
        simp [hrun, find_manifest, hd, hm, hip]
      exact ⟨_, hres, rfl⟩

/-- C9 witness: a Running domain, an always-erroring lease query, no
manifest on disk. -/
theorem lease_errors_swallowed_witness :
    ∃ info, get_info { baseEnv with leases := fun _ => .error .libvirtError }
        (fun _ => none) ⟨[], [("vmt-x", .running)], 0⟩ "x" = .ok (some info) ∧
      info.ip = none :=
  lease_errors_swallowed.2.2 _ (fun _ => none) ⟨[], [("vmt-x", .running)], 0⟩
    "x" rfl ⟨.libvirtError, rfl⟩ (Or.inl rfl)

/-! ## C10 — manifest validation errors propagate out of `get_info` -/

/-- C10: `get_info`'s root/22 fallback applies when the manifest file is
absent (`FileNotFoundError`); but when a manifest file exists and fails
the loader's validation, the `ValueError` propagates out of `get_info`
instead of being replaced by the fallback. -/
theorem get_info_manifest_validation (env : Env)
    (manifestAt : String → Option TomlData) (w : World) (name : String) :
    (∀ data msg, lookupByName w.lv ("vmt-" ++ name) = some .running →
        manifestAt name = some data →
        load_vm_manifest data = .error (.valueError msg) →
        get_info env manifestAt w name = .error (.valueError msg)) ∧
    (lookupByName w.lv ("vmt-" ++ name) = some .running →
        manifestAt name = none →
        get_info env manifestAt w name =
          .ok (some { name := name, domain := "vmt-" ++ name,
                      ip := get_ip (env.leases w.clock), ssh_user := "root",
                      ssh_port := 22, spice_port := env.spicePort })) := by
  constructor
  · intro data msg hrun hd hload
    unfold get_info
    simp [hrun, find_manifest, hd, hload]
  · intro hrun hnone
    unfold get_info
    simp [hrun, find_manifest, hnone]

/-- C10 witness: `vmt-x` Running; `x.toml` exists but lacks the `[ssh]`
section, so the loader's `ValueError` escapes `get_info`; with no
manifest at all, the root/22 fallback applies. -/
theorem get_info_manifest_validation_witness :
    get_info baseEnv
        (fun _ => some { vm := some { name := some "x", image := some "img" },
                         provision := some {}, ssh := none })
        ⟨[], [("vmt-x", .running)], 0⟩ "x"
      = .error (.valueError "Missing required section: [ssh]") ∧
    get_info baseEnv (fun _ => none) ⟨[], [("vmt-x", .running)], 0⟩ "x"
      = .ok (some { name := "x", domain := "vmt-x",
                    ip := some "192.168.122.50", ssh_user := "root",
                    ssh_port := 22, spice_port := none }) :=
  ⟨(get_info_manifest_validation baseEnv _ _ "x").1 _
      "Missing required section: [ssh]" rfl rfl rfl,
   (get_info_manifest_validation baseEnv _ _ "x").2 rfl rfl⟩

/-! ## C5 — `get_info` state handling -/

theorem first_ipv4_mem :
    ∀ (ifaces : List (List Addr)) (a : String),
      first_ipv4 ifaces = some a →
      ∃ ifa ∈ ifaces, ∃ ad ∈ ifa, ad.addr = a ∧ ad.type = .ipv4
  | [], a, h => by simp [first_ipv4] at h
  | iface :: rest, a, h => by
    unfold first_ipv4 at h
    cases hf : iface.find? (fun x => x.type == AddrType.ipv4) with
    | some ad =>
      rw [hf] at h
      have had : ad.addr = a := by injection h
      have hmem := List.mem_of_find?_eq_some hf
      have hty := List.find?_some hf
      exact ⟨iface, List.mem_cons_self _ _, ad, hmem, had, by simpa using hty⟩
    | none =>
      rw [hf] at h
      obtain ⟨ifa, h1, hrest⟩ := first_ipv4_mem rest a h
      exact ⟨ifa, List.mem_cons_of_mem _ h1, hrest⟩

/-- C5: `get_info(name)` returns `none` when the domain `vmt-{name}` is
absent or not Running; when the domain is Running with at least one
leased IPv4 address it returns a populated descriptor whose `ip` is that
(non-empty) address, with ssh user/port taken from the manifest when it
is resolvable (`.get` defaults applied) and the fixed fallback
`root`/`22` when the manifest can no longer be found. -/
theorem get_info_states (env : Env) (manifestAt : String → Option TomlData)
    (w : World) (name : String) :
    (lookupByName w.lv ("vmt-" ++ name) = none →
        get_info env manifestAt w name = .ok none) ∧
    (lookupByName w.lv ("vmt-" ++ name) = some .shutoff →
        get_info env manifestAt w name = .ok none) ∧
    (∀ ifaces a, lookupByName w.lv ("vmt-" ++ name) = some .running →
        env.leases w.clock = .ok ifaces →
        first_ipv4 ifaces = some a →
        (∀ ifa ∈ ifaces, ∀ ad ∈ ifa, ad.addr ≠ "") →
        a ≠ "" ∧
        (∀ data m, manifestAt name = some data →
          load_vm_manifest data = .ok m →
          get_info env manifestAt w name =
            .ok (some { name := name, domain := "vmt-" ++ name, ip := some a,
                        ssh_user := m.ssh_user.getD "root",
                        ssh_port := m.ssh_port.getD 22,
                        spice_port := env.spicePort })) ∧
        (manifestAt name = none →
          get_info env manifestAt w name =
            .ok (some { name := name, domain := "vmt-" ++ name, ip := some a,
                        ssh_user := "root", ssh_port := 22,
                        spice_port := env.spicePort }))) := by
  refine ⟨?_, ?_, ?_⟩
  · intro habs
    unfold get_info
    simp [habs]
  · intro hoff
    unfold get_info
    simp [hoff]
  · intro ifaces a hrun hleases hfirst hnonempty
    have hip : get_ip (env.leases w.clock) = some a := by
      rw [hleases]
      exact hfirst
    refine ⟨?_, ?_, ?_⟩
    · obtain ⟨ifa, hifa, ad, had, haddr, -⟩ := first_ipv4_mem ifaces a hfirst
      intro hempty
      exact hnonempty ifa hifa ad had (haddr.trans hempty)
    · intro data m hd hm
      unfold get_info
      simp [hrun, find_manifest, hd, hm, hip]
    · intro hnone
      unfold get_info
      simp [hrun, find_manifest, hnone, hip]

/-- C5 witness: absent domain, stopped domain, and a Running domain with
one IPv4 lease, with and without a resolvable manifest. -/
theorem get_info_states_witness :
    get_info baseEnv (fun _ => none) ⟨[], [], 0⟩ "x" = .ok none ∧
    get_info baseEnv (fun _ => none) ⟨[], [("vmt-x", .shutoff)], 0⟩ "x"
      = .ok none ∧
    get_info baseEnv
        (fun _ => some { vm := some { name := some "x", image := some "img" },
                         provision := some {},
                         ssh := some { user := some "admin", port := some 2222 } })
        ⟨[], [("vmt-x", .running)], 0⟩ "x"
      = .ok (some { name := "x", domain := "vmt-x",
                    ip := some "192.168.122.50", ssh_user := "admin",
                    ssh_port := 2222, spice_port := none }) := by
  refine ⟨(get_info_states baseEnv (fun _ => none) ⟨[], [], 0⟩ "x").1 rfl,
          (get_info_states baseEnv (fun _ => none)
            ⟨[], [("vmt-x", .shutoff)], 0⟩ "x").2.1 rfl, ?_⟩
  exact ((get_info_states baseEnv
      (fun _ => some { vm := some { name := some "x", image := some "img" },
                       provision := some {},
                       ssh := some { user := some "admin", port := some 2222 } })
      ⟨[], [("vmt-x", .running)], 0⟩ "x").2.2
      [[⟨.ipv4, "192.168.122.50"⟩]] "192.168.122.50" rfl rfl rfl
      (by decide)).2.1 _ _ rfl rfl

/-- C8 witness: a walk with a failed grant and a non-directory component
(matching the amended description), and a zero-grant path whose directory
components are all world-executable. -/
theorem grant_traversal_amended_witness :
    grant_qemu_access (fun i => i != 0)
        [PathComp.mk true false, PathComp.mk false false, PathComp.mk true false]
      = grants_spec (fun i => i != 0)
        [PathComp.mk true false, PathComp.mk false false, PathComp.mk true false] ∧
    (grant_qemu_access (fun _ => true)
        [PathComp.mk true true, PathComp.mk false false]).1 = [] :=
  ⟨(grant_traversal_amended (fun i => i != 0)
      [PathComp.mk true false, PathComp.mk false false, PathComp.mk true false]).1,
   (grant_traversal_amended (fun _ => true)
      [PathComp.mk true true, PathComp.mk false false]).2 (by decide)⟩

/-! ## Domain-table lemmas (toward C1/C4) -/

theorem map_fst_setDomState (lv : LV) (n : String) (st : DomState) :
    (setDomState lv n st).map Prod.fst = lv.map Prod.fst := by
  induction lv with
  | nil => rfl
  | cons q rest ih =>
    unfold setDomState
    by_cases h : (q.1 == n) = true
    · simp [h]
    · simp only [h]
      simp [ih]

theorem lookupByName_eq_none_iff (lv : LV) (n : String) :
    lookupByName lv n = none ↔ n ∉ lv.map Prod.fst := by
  unfold lookupByName
  constructor
  · intro h hmem
    obtain ⟨q, hq, hfst⟩ := List.mem_map.mp hmem
    rw [Option.map_eq_none'] at h
    have := List.find?_eq_none.mp h q hq
    simp [hfst] at this
  · intro h
    rw [Option.map_eq_none', List.find?_eq_none]
    intro q hq
    simp only [beq_iff_eq]
    intro hfst
    exact h (List.mem_map.mpr ⟨q, hq, hfst⟩)

theorem not_mem_fst_eraseP (dn : String) :
    ∀ (lv : LV), (lv.map Prod.fst).Nodup →
      dn ∉ (lv.eraseP (fun p => p.1 == dn)).map Prod.fst
  | [], _ => by simp
  | q :: rest, hnd => by
    simp only [List.map_cons, List.nodup_cons] at hnd
    unfold List.eraseP
    by_cases h : (q.1 == dn) = true
    · simp only [h, cond_true]
      have : q.1 = dn := by simpa using h
      rw [← this]
      exact hnd.1
    · simp only [h, cond_false, List.map_cons, List.mem_cons]
      rintro (rfl | hmem)
      · simp at h
      · exact not_mem_fst_eraseP dn rest hnd.2 hmem

theorem names_undefine_sublist (lv : LV) (dn : String) :
    List.Sublist ((undefineDom lv dn).map Prod.fst) (lv.map Prod.fst) :=
  (List.eraseP_sublist lv).map Prod.fst

theorem cleanup_names_sub (lv : LV) (dn : String) :
    ∀ d ∈ (cleanup_existing_domain lv dn).map Prod.fst,
      d ∈ lv.map Prod.fst := by
  intro d hd
  unfold cleanup_existing_domain at hd
  split at hd
  · exact hd
  · simp only [] at hd
    have hd2 := (names_undefine_sublist _ dn).subset hd
    split at hd2
    · rw [map_fst_setDomState] at hd2
      exact hd2
    · exact hd2

theorem cleanup_nodup (lv : LV) (dn : String)
    (hnd : (lv.map Prod.fst).Nodup) :
    ((cleanup_existing_domain lv dn).map Prod.fst).Nodup := by
  unfold cleanup_existing_domain
  split
  · exact hnd
  · simp only []
    refine List.Nodup.sublist (names_undefine_sublist _ dn) ?_
    split
    · rw [map_fst_setDomState]; exact hnd
    · exact hnd

theorem cleanup_not_mem (lv : LV) (dn : String)
    (hnd : (lv.map Prod.fst).Nodup) :
    dn ∉ (cleanup_existing_domain lv dn).map Prod.fst := by
  unfold cleanup_existing_domain
  split
  · next h => exact (lookupByName_eq_none_iff lv dn).mp h
  · simp only [undefineDom]
    split
    · exact not_mem_fst_eraseP dn _ (by rw [map_fst_setDomState]; exact hnd)
    · exact not_mem_fst_eraseP dn _ hnd

theorem lookup_append_singleton (xs : LV) (dn : String) (st : DomState)
    (h : dn ∉ xs.map Prod.fst) :
    lookupByName (xs ++ [(dn, st)]) dn = some st := by
  induction xs with
  | nil => simp [lookupByName]
  | cons q rest ih =>
    simp only [List.map_cons, List.mem_cons] at h
    push_neg at h
    have hq : (q.1 == dn) = false := by
      simp only [beq_eq_false_iff_ne, ne_eq]
      exact fun hc => h.1 hc.symm
    simp only [List.cons_append, lookupByName, List.find?_cons, hq]
    exact ih h.2

theorem countP_append_singleton (xs : LV) (dn : String) (st : DomState)
    (h : dn ∉ xs.map Prod.fst) :
    (xs ++ [(dn, st)]).countP (fun p => p.1 == dn) = 1 := by
  rw [List.countP_append]
  have h0 : xs.countP (fun p => p.1 == dn) = 0 := by
    rw [List.countP_eq_zero]
    intro q hq
    simp only [beq_iff_eq]
    intro hfst
    exact h (List.mem_map.mpr ⟨q, hq, hfst⟩)
  simp [h0, List.countP_cons]

theorem setDomState_append_last (xs : LV) (dn : String) (st st' : DomState)
    (h : dn ∉ xs.map Prod.fst) :
    setDomState (xs ++ [(dn, st)]) dn st' = xs ++ [(dn, st')] := by
  induction xs with
  | nil => simp [setDomState]
  | cons q rest ih =>
    simp only [List.map_cons, List.mem_cons] at h
    push_neg at h
    have hq : (q.1 == dn) = false := by
      simp only [beq_eq_false_iff_ne, ne_eq]
      exact fun hc => h.1 hc.symm
    simp only [List.cons_append, setDomState, hq]
    simp [ih h.2]

/-! ## `up` success shape (toward C1) -/

/-- All external collaborators behave during the run: transfer completes,
both tools succeed, a key pair exists, the DHCP lease table always shows
an address, SSH comes up. -/
structure EnvOk (env : Env) : Prop where
  fetch_ok : env.fetch = .ok
  qemu_ok : env.qemuImgOk = true
  iso_ok : env.isoToolOk = true
  pubkey_some : ∃ k, env.pubkey = some k
  lease_ok : ∀ t, ∃ ip, get_ip (env.leases t) = some ip
  ssh_ok : env.sshOk = true

theorem resolve_image_ok_snd (fs : FS) (u : String) :
    ∃ fs', resolve_image .ok fs u =
      (fs', .ok (imagesDir ++ "/" ++ lastSegment u)) := by
  unfold resolve_image
  by_cases h : existsPath (mkdirChain fs imagesDirChain)
      (imagesDir ++ "/" ++ lastSegment u) = true
  · simp only [h, if_true]
    exact ⟨_, rfl⟩
  · simp only [h, if_false, urlretrieve]
    exact ⟨_, rfl⟩

theorem wait_for_ip_first_poll
    (leases : Nat → Except PyExc (List (List Addr))) (dn : String)
    (timeout t0 : Nat) (ip : String) (h : get_ip (leases t0) = some ip)
    (hpos : 0 < timeout) :
    wait_for_ip leases dn timeout t0 = (t0, .ok ip) := by
  unfold wait_for_ip wait_for_ip_loop
  rw [if_pos (by omega : t0 < t0 + timeout), h]

/-- A successful `up` ends with the domain table equal to the cleaned-up
old table plus the freshly defined, now Running domain appended, the
clock unmoved (first poll already finds the address), and the info dict
carrying the manifest-derived fields. -/
theorem up_success_shape (env : Env) (manifestAt : String → Option TomlData)
    (w : World) (name : String) (data : TomlData) (m : Manifest) (u : String)
    (henv : EnvOk env)
    (hfind : manifestAt name = some data)
    (hload : load_vm_manifest data = .ok m)
    (hu : m.ssh_user = some u)
    (hp : m.packages.isSome = true)
    (hc : m.compositor_cmd.isSome = true)
    (hnd : (w.lv.map Prod.fst).Nodup) :
    (up env manifestAt w name).1.lv =
        cleanup_existing_domain w.lv ("vmt-" ++ m.vm_name)
          ++ [("vmt-" ++ m.vm_name, .running)] ∧
    (up env manifestAt w name).1.clock = w.clock ∧
    ∃ ip, (up env manifestAt w name).2 =
        .ok { name := m.vm_name, domain := "vmt-" ++ m.vm_name,
              ip := some ip, ssh_user := u, ssh_port := m.ssh_port.getD 22,
              spice_port := env.spicePort } := by
  obtain ⟨k, hk⟩ := henv.pubkey_some
  obtain ⟨ps, hps⟩ := Option.isSome_iff_exists.mp hp
  obtain ⟨cc, hcc⟩ := Option.isSome_iff_exists.mp hc
  obtain ⟨ip, hip⟩ := henv.lease_ok w.clock
  have hfm : find_manifest manifestAt name = .ok data := by
    simp [find_manifest, hfind]
  obtain ⟨fs2, hres⟩ := resolve_image_ok_snd w.fs m.image
  have hud : generate_user_data m k = .ok "#cloud-config" := by
    unfold generate_user_data
    rw [hu, hps, hcc]
  have hclean : lookupByName
      (cleanup_existing_domain w.lv ("vmt-" ++ m.vm_name))
      ("vmt-" ++ m.vm_name) = none :=
    (lookupByName_eq_none_iff _ _).mpr (cleanup_not_mem w.lv _ hnd)
  have hdef : defineXML (cleanup_existing_domain w.lv ("vmt-" ++ m.vm_name))
      ("vmt-" ++ m.vm_name) =
      .ok (cleanup_existing_domain w.lv ("vmt-" ++ m.vm_name)
        ++ [("vmt-" ++ m.vm_name, .shutoff)]) := by
    unfold defineXML
    rw [hclean]
    rfl
  have hcreate : createDom (cleanup_existing_domain w.lv ("vmt-" ++ m.vm_name)
      ++ [("vmt-" ++ m.vm_name, .shutoff)]) ("vmt-" ++ m.vm_name) =
      cleanup_existing_domain w.lv ("vmt-" ++ m.vm_name)
        ++ [("vmt-" ++ m.vm_name, .running)] :=
    setDomState_append_last _ _ _ _ (cleanup_not_mem w.lv _ hnd)
  have hwait : wait_for_ip env.leases ("vmt-" ++ m.vm_name) 60 w.clock =
      (w.clock, .ok ip) :=
    wait_for_ip_first_poll env.leases _ 60 w.clock ip hip (by omega)
  simp only [up, hfm, hload, hu, henv.fetch_ok, hres, vm_dir,
    create_overlay_disk, henv.qemu_ok, if_true, get_ssh_pubkey, hk, hud,
    create_cloud_init_iso, henv.iso_ok, hdef, hcreate, hwait, ssh_wait,
    henv.ssh_ok, ite_true]
  exact ⟨trivial, trivial, ip, rfl⟩

/-! ## C1 — idempotent re-creation -/

/-- C1: `up(name)` unconditionally destroys (if running) and undefines
any pre-existing domain of that name before defining, so `define` never
collides with stale state: starting from any hypervisor table (unique
names) and healthy collaborators, a first `up` succeeds, a second `up`
run on the resulting world succeeds again, and after each of the two
runs exactly one domain named `vmt-{manifest name}` exists and it is
Running. -/
theorem up_idempotent_recreation (env : Env)
    (manifestAt : String → Option TomlData) (w : World) (name : String)
    (data : TomlData) (m : Manifest) (u : String)
    (henv : EnvOk env)
    (hfind : manifestAt name = some data)
    (hload : load_vm_manifest data = .ok m)
    (hu : m.ssh_user = some u)
    (hp : m.packages.isSome = true)
    (hc : m.compositor_cmd.isSome = true)
    (hnd : (w.lv.map Prod.fst).Nodup) :
    (∃ i1, (up env manifestAt w name).2 = .ok i1) ∧
    (∃ i2, (up env manifestAt (up env manifestAt w name).1 name).2
        = .ok i2) ∧
    (up env manifestAt w name).1.lv.countP
        (fun p => p.1 == "vmt-" ++ m.vm_name) = 1 ∧
    lookupByName (up env manifestAt w name).1.lv ("vmt-" ++ m.vm_name)
        = some .running ∧
    (up env manifestAt (up env manifestAt w name).1 name).1.lv.countP
        (fun p => p.1 == "vmt-" ++ m.vm_name) = 1 ∧
    lookupByName (up env manifestAt (up env manifestAt w name).1 name).1.lv
        ("vmt-" ++ m.vm_name) = some .running := by
  obtain ⟨hlv1, -, ip1, hok1⟩ :=
    up_success_shape env manifestAt w name data m u henv hfind hload hu hp hc
      hnd
  have hnm1 : "vmt-" ++ m.vm_name
      ∉ (cleanup_existing_domain w.lv ("vmt-" ++ m.vm_name)).map Prod.fst :=
    cleanup_not_mem w.lv _ hnd
  have hnd1 : ((up env manifestAt w name).1.lv.map Prod.fst).Nodup := by
    rw [hlv1, List.map_append]
    refine List.Nodup.append (cleanup_nodup _ _ hnd)
      (List.nodup_singleton _) ?_
    intro a ha hb
    simp only [List.map_cons, List.map_nil, List.mem_singleton] at hb
    subst hb
    exact hnm1 ha
  obtain ⟨hlv2, -, ip2, hok2⟩ :=
    up_success_shape env manifestAt (up env manifestAt w name).1 name data m
      u henv hfind hload hu hp hc hnd1
  have hnm2 : "vmt-" ++ m.vm_name
      ∉ (cleanup_existing_domain (up env manifestAt w name).1.lv
          ("vmt-" ++ m.vm_name)).map Prod.fst :=
    cleanup_not_mem _ _ hnd1
  refine ⟨⟨_, hok1⟩, ⟨_, hok2⟩, ?_, ?_, ?_, ?_⟩
  · rw [hlv1]
    exact countP_append_singleton _ _ _ hnm1
  · rw [hlv1]
    exact lookup_append_singleton _ _ _ hnm1
  · rw [hlv2]
    exact countP_append_singleton _ _ _ hnm2
  · rw [hlv2]
    exact lookup_append_singleton _ _ _ hnm2

/-- A concrete, fully valid manifest file for the witnesses. -/
def dataX : TomlData :=
  { vm := some { name := some "x", image := some "http://h/base.qcow2",
                 memory := some 2048, cpus := some 2, disk := none },
    provision := some { packages := some ["grim"],
                        compositor_cmd := some "sway", env := none },
    ssh := some { user := some "root", port := none } }

/-- Manifest search that finds `dataX` for every name. -/
def manifestAtX : String → Option TomlData := fun _ => some dataX

/-- What `load_vm_manifest` returns for `dataX`. -/
def mX : Manifest :=
  { vm_name := "x", image := "http://h/base.qcow2", memory := 2048,
    cpus := 2, disk := 10, ssh_user := some "root", ssh_port := none,
    packages := some ["grim"], compositor_cmd := some "sway",
    provision_env := [] }

/-- C1 witness: a world already holding a stale stopped `vmt-x` domain;
both `up` runs succeed and end with exactly one Running `vmt-x`. -/
theorem up_idempotent_recreation_witness :
    (∃ i1, (up baseEnv manifestAtX
        ⟨[], [("vmt-x", DomState.shutoff)], 0⟩ "x").2 = .ok i1) ∧
    (∃ i2, (up baseEnv manifestAtX (up baseEnv manifestAtX
        ⟨[], [("vmt-x", DomState.shutoff)], 0⟩ "x").1 "x").2 = .ok i2) ∧
    (up baseEnv manifestAtX (up baseEnv manifestAtX
        ⟨[], [("vmt-x", DomState.shutoff)], 0⟩ "x").1 "x").1.lv.countP
        (fun p => p.1 == "vmt-" ++ mX.vm_name) = 1 ∧
    lookupByName (up baseEnv manifestAtX (up baseEnv manifestAtX
        ⟨[], [("vmt-x", DomState.shutoff)], 0⟩ "x").1 "x").1.lv
        ("vmt-" ++ mX.vm_name) = some .running := by
  have h := up_idempotent_recreation baseEnv manifestAtX
    ⟨[], [("vmt-x", DomState.shutoff)], 0⟩ "x" dataX mX "root"
    ⟨rfl, rfl, rfl, ⟨"ssh-ed25519 AAAA host", rfl⟩,
      fun _ => ⟨"192.168.122.50", rfl⟩, rfl⟩
    rfl rfl rfl rfl rfl (by simp)
  exact ⟨h.1, h.2.1, h.2.2.2.2.1, h.2.2.2.2.2⟩

/-! ## C4 — domain naming identity -/

theorem vmt_prefix_inj (n1 n2 : String) (h : "vmt-" ++ n1 = "vmt-" ++ n2) :
    n1 = n2 := by
  have hd : "vmt-".data ++ n1.data = "vmt-".data ++ n2.data :=
    congrArg String.data h
  have hdd := List.append_cancel_left hd
  cases n1
  cases n2
  exact congrArg String.mk (by simpa using hdd)

theorem find_manifest_ok_iff (mAt : String → Option TomlData)
    (name : String) (d : TomlData) :
    find_manifest mAt name = .ok d ↔ mAt name = some d := by
  unfold find_manifest
  cases h : mAt name <;> simp

theorem defineXML_ok (lv : LV) (dn : String) (lv' : LV)
    (h : defineXML lv dn = .ok lv') : lv' = lv ++ [(dn, .shutoff)] := by
  unfold defineXML at h
  split at h
  · exact absurd h (by simp)
  · injection h with h
    exact h.symm

/-- C4: `up(name)` only ever defines a domain named `vmt-` followed by
the loaded manifest's name: on every execution path any domain name in
the final hypervisor table either was already present or is exactly
`vmt-{manifest name}`; a successful run reports that same domain name;
and distinct manifest names yield distinct domain names, so `up` never
defines a domain under another name's identity. -/
theorem up_domain_identity (env : Env)
    (manifestAt : String → Option TomlData) (w : World) (name : String) :
    (∀ d ∈ (up env manifestAt w name).1.lv.map Prod.fst,
        d ∈ w.lv.map Prod.fst ∨
        ∃ data m, manifestAt name = some data ∧
          load_vm_manifest data = .ok m ∧ d = "vmt-" ++ m.vm_name) ∧
    (∀ info, (up env manifestAt w name).2 = .ok info →
        ∃ data m, manifestAt name = some data ∧
          load_vm_manifest data = .ok m ∧
          info.domain = "vmt-" ++ m.vm_name) ∧
    (∀ n1 n2 : String, n1 ≠ n2 → "vmt-" ++ n1 ≠ "vmt-" ++ n2) := by
  refine ⟨?_, ?_, fun n1 n2 hne hc => hne (vmt_prefix_inj n1 n2 hc)⟩
  · intro d hd
    unfold up at hd
    split at hd
    · exact Or.inl hd
    next data hfind =>
      split at hd
      · exact Or.inl hd
      next m hload =>
        have hfind' : manifestAt name = some data :=
          (find_manifest_ok_iff manifestAt name data).mp hfind
        split at hd
        · exact Or.inl hd
        next u hu =>
          split at hd
          · exact Or.inl hd
          next fs2 base hres =>
            simp only [vm_dir] at hd
            split at hd
            · exact Or.inl hd
            next fs4 a hov =>
              split at hd
              · exact Or.inl hd
              next pk hpk =>
                split at hd
                · exact Or.inl hd
                next ud hud =>
                  split at hd
                  · exact Or.inl hd
                  next fs5 b hiso =>
                    split at hd
                    · exact Or.inl (cleanup_names_sub _ _ d hd)
                    next lv2 hdef =>
                      have hlv2 := defineXML_ok _ _ _ hdef
                      subst hlv2
                      have hstep : ∀ _hd2 : d ∈ (createDom
                            (cleanup_existing_domain w.lv
                              ("vmt-" ++ m.vm_name)
                              ++ [("vmt-" ++ m.vm_name, DomState.shutoff)])
                            ("vmt-" ++ m.vm_name)).map Prod.fst,
                          d ∈ (cleanup_existing_domain w.lv
                              ("vmt-" ++ m.vm_name)).map Prod.fst
                            ∨ d = "vmt-" ++ m.vm_name := by
                        intro hd2
                        rw [createDom, map_fst_setDomState,
                          List.map_append] at hd2
                        rcases List.mem_append.mp hd2 with h1 | h1
                        · exact Or.inl h1
                        · simp only [List.map_cons, List.map_nil,
                            List.mem_singleton] at h1
                          exact Or.inr h1
                      have hmem : d ∈ (cleanup_existing_domain w.lv
                            ("vmt-" ++ m.vm_name)).map Prod.fst
                          ∨ d = "vmt-" ++ m.vm_name := by
                        split at hd
                        · exact hstep hd
                        · split at hd <;> exact hstep hd
                      rcases hmem with h1 | h1
                      · exact Or.inl (cleanup_names_sub _ _ d h1)
                      · exact Or.inr ⟨data, m, hfind', hload, h1⟩
  · intro info hinfo
    unfold up at hinfo
    split at hinfo
    · exact absurd hinfo (by simp)
    next data hfind =>
      split at hinfo
      · exact absurd hinfo (by simp)
      next m hload =>
        have hfind' : manifestAt name = some data :=
          (find_manifest_ok_iff manifestAt name data).mp hfind
        split at hinfo
        · exact absurd hinfo (by simp)
        next u hu =>
          split at hinfo
          · exact absurd hinfo (by simp)
          next fs2 base hres =>
            simp only [vm_dir] at hinfo
            split at hinfo
            · exact absurd hinfo (by simp)
            next fs4 a hov =>
              split at hinfo
              · exact absurd hinfo (by simp)
              next pk hpk =>
                split at hinfo
                · exact absurd hinfo (by simp)
                next ud hud =>
                  split at hinfo
                  · exact absurd hinfo (by simp)
                  next fs5 b hiso =>
                    split at hinfo
                    · exact absurd hinfo (by simp)
                    next lv2 hdef =>
                      split at hinfo
                      · exact absurd hinfo (by simp)
                      next t1 ip hwait =>
                        split at hinfo
                        · exact absurd hinfo (by simp)
                        · injection hinfo with hinfo
                          exact ⟨data, m, hfind', hload, by rw [← hinfo]⟩

/-- C4 witness: the freshly defined domain name of a successful `up`
satisfies the naming identity, and two distinct names give distinct
domain names. -/
theorem up_domain_identity_witness :
    ("vmt-" ++ mX.vm_name ∈ (⟨[], [], 0⟩ : World).lv.map Prod.fst ∨
      ∃ data m, manifestAtX "x" = some data ∧
        load_vm_manifest data = .ok m ∧
        "vmt-" ++ mX.vm_name = "vmt-" ++ m.vm_name) ∧
    "vmt-" ++ "a" ≠ "vmt-" ++ "b" := by
  obtain ⟨hlv1, -, ip, -⟩ := up_success_shape baseEnv manifestAtX
    ⟨[], [], 0⟩ "x" dataX mX "root"
    ⟨rfl, rfl, rfl, ⟨"ssh-ed25519 AAAA host", rfl⟩,
      fun _ => ⟨"192.168.122.50", rfl⟩, rfl⟩
    rfl rfl rfl rfl rfl (by simp)
  have hdmem : "vmt-" ++ mX.vm_name
      ∈ (up baseEnv manifestAtX ⟨[], [], 0⟩ "x").1.lv.map Prod.fst := by
    rw [hlv1, List.map_append]
    exact List.mem_append_right _ (by simp)
  exact ⟨(up_domain_identity baseEnv manifestAtX ⟨[], [], 0⟩ "x").1 _ hdmem,
    (up_domain_identity baseEnv manifestAtX ⟨[], [], 0⟩ "x").2.2 "a" "b"
      (by decide)⟩

/-! ## C3 — domain XML generation: determinism and element values

The memory and vcpu element values are read back out of the generated
document text by a small scanner: find the end of the name element
(sound because VM names contain no markup), then the opening tag, then
take the text up to the next `<`. -/

/-- Prefix test, recursing on the pattern first so that an exhausted
pattern answers `true` without inspecting the rest of the text. -/
def isPre (pat l : List Char) : Bool :=
  match pat with
  | [] => true
  | p :: ps =>
    match l with
    | [] => false
    | c :: cs => p == c && isPre ps cs

/-- The suffix of `l` that follows the first occurrence of `pat`, or
`none` when `pat` does not occur. -/
def findSplit (pat : List Char) : List Char → Option (List Char)
  | [] => none
  | c :: cs =>
    if isPre pat (c :: cs) then some ((c :: cs).drop pat.length)
    else findSplit pat cs

/-- Text of the element opened by `tag` after the name element of a
domain document. -/
def tagValue (tag : List Char) (doc : String) : Option String :=
  (findSplit ("</name>".data) doc.data).bind fun rest =>
    (findSplit tag rest).map fun r2 =>
      String.mk (r2.takeWhile (fun c => c != '<'))

/-- The text of the `<memory unit='KiB'>` element. -/
def memoryValue (doc : String) : Option String :=
  tagValue ("<memory unit='KiB'>".data) doc

/-- The text of the `<vcpu>` element. -/
def vcpuValue (doc : String) : Option String :=
  tagValue ("<vcpu>".data) doc

theorem string_data_append (a b : String) :
    (a ++ b).data = a.data ++ b.data := rfl

theorem findSplit_skip (p : Char) (ps : List Char) :
    ∀ (s t : List Char), (∀ c ∈ s, c ≠ p) →
      findSplit (p :: ps) (s ++ t) = findSplit (p :: ps) t
  | [], _, _ => rfl
  | c :: cs, t, h => by
    have hc : c ≠ p := h c (List.mem_cons_self _ _)
    have hpc : (p == c) = false := beq_eq_false_iff_ne.mpr fun e => hc e.symm
    have hpre : isPre (p :: ps) (c :: (cs ++ t)) = false := by
      show ((p == c) && isPre ps (cs ++ t)) = false
      rw [hpc, Bool.false_and]
    rw [List.cons_append]
    rw [show findSplit (p :: ps) (c :: (cs ++ t))
        = if isPre (p :: ps) (c :: (cs ++ t)) then
            some ((c :: (cs ++ t)).drop (p :: ps).length)
          else findSplit (p :: ps) (cs ++ t) from rfl]
    rw [hpre]
    simp only [Bool.false_eq_true, if_false]
    exact findSplit_skip p ps cs t fun c hc2 => h c (List.mem_cons_of_mem _ hc2)

theorem takeWhile_until_lt (l1 : List Char)
    (h : ∀ c ∈ l1, c ≠ '<') (l2 : List Char) :
    (l1 ++ '<' :: l2).takeWhile (fun c => c != '<') = l1 := by
  induction l1 with
  | nil => simp [List.takeWhile]
  | cons c cs ih =>
    have hc : (c != '<') = true :=
      bne_iff_ne.mpr (h c (List.mem_cons_self _ _))
    rw [List.cons_append, List.takeWhile_cons, hc]
    simp only [if_true]
    rw [ih fun c hc2 => h c (List.mem_cons_of_mem _ hc2)]

theorem digitChar_isDigit (m : Nat) (h : m < 10) :
    (Nat.digitChar m).isDigit = true := by
  interval_cases m <;> decide

theorem toDigitsCore_digits :
    ∀ (f n : Nat) (acc : List Char), (∀ c ∈ acc, c.isDigit = true) →
      ∀ c ∈ Nat.toDigitsCore 10 f n acc, c.isDigit = true
  | 0, n, acc, hacc => by
    intro c hc
    exact hacc c hc
  | f + 1, n, acc, hacc => by
    have hacc' : ∀ c ∈ Nat.digitChar (n % 10) :: acc, c.isDigit = true := by
      intro c hc
      rcases List.mem_cons.mp hc with rfl | hc2
      · exact digitChar_isDigit _ (Nat.mod_lt _ (by omega))
      · exact hacc c hc2
    intro c hc
    rw [show Nat.toDigitsCore 10 (f + 1) n acc
        = (if n / 10 = 0 then Nat.digitChar (n % 10) :: acc
           else Nat.toDigitsCore 10 f (n / 10)
             (Nat.digitChar (n % 10) :: acc)) from rfl] at hc
    split at hc
    · exact hacc' c hc
    · exact toDigitsCore_digits f (n / 10) _ hacc' c hc

/-- Every character of a rendered natural number is a decimal digit, so
in particular none of them is `<`. -/
theorem toString_nat_no_lt (n : Nat) :
    ∀ c ∈ (toString n).data, c ≠ '<' := by
  intro c hc heq
  have hdata : (toString n).data = Nat.toDigitsCore 10 (n + 1) n [] := rfl
  rw [hdata] at hc
  have hdig := toDigitsCore_digits (n + 1) n [] (by simp) c hc
  rw [heq] at hdig
  exact absurd hdig (by decide)

theorem scan_head (X : List Char) :
    findSplit ("</name>".data)
        ("<domain type='kvm'>\n  <name>vmt-".data ++ X)
      = findSplit ("</name>".data) X := rfl

theorem skip_name_close (s t : List Char) (h : ∀ c ∈ s, c ≠ '<') :
    findSplit ("</name>".data) (s ++ t) = findSplit ("</name>".data) t := by
  have e : ("</name>".data : List Char) = '<' :: "/name>".data := rfl
  rw [e]
  exact findSplit_skip '<' _ s t h

theorem scan_name_close (X : List Char) :
    findSplit ("</name>".data)
        ("</name>\n  <memory unit='KiB'>".data ++ X)
      = some ("\n  <memory unit='KiB'>".data ++ X) := rfl

theorem scan_memory_tag (X : List Char) :
    findSplit ("<memory unit='KiB'>".data)
        ("\n  <memory unit='KiB'>".data ++ X) = some X := rfl

theorem scan_vcpu_skip (X : List Char) :
    findSplit ("<vcpu>".data) ("\n  <memory unit='KiB'>".data ++ X)
      = findSplit ("<vcpu>".data) X := rfl

theorem skip_vcpu (s t : List Char) (h : ∀ c ∈ s, c ≠ '<') :
    findSplit ("<vcpu>".data) (s ++ t) = findSplit ("<vcpu>".data) t := by
  have e : ("<vcpu>".data : List Char) = '<' :: "vcpu>".data := rfl
  rw [e]
  exact findSplit_skip '<' _ s t h

theorem scan_vcpu_tag (X : List Char) :
    findSplit ("<vcpu>".data) ("</memory>\n  <vcpu>".data ++ X)
      = some X := rfl

set_option maxRecDepth 20000 in
/-- C3: the domain document is a pure function of its five arguments
(equal inputs give byte-identical output), and — for any VM name free of
markup characters — the memory element's text is exactly the decimal
rendering of `memory_mb * 1024` (KiB) and the vcpu element's text is
exactly the decimal rendering of `cpus`. -/
theorem generate_domain_xml_values (name : String) (memory_mb cpus : Nat)
    (disk_path cloud_init_iso : String)
    (hname : ∀ c ∈ name.data, c ≠ '<') :
    (∀ n2 m2 c2 d2 i2, name = n2 → memory_mb = m2 → cpus = c2 →
      disk_path = d2 → cloud_init_iso = i2 →
      generate_domain_xml name memory_mb cpus disk_path cloud_init_iso =
        generate_domain_xml n2 m2 c2 d2 i2) ∧
    memoryValue (generate_domain_xml name memory_mb cpus disk_path
        cloud_init_iso) = some (toString (memory_mb * 1024)) ∧
    vcpuValue (generate_domain_xml name memory_mb cpus disk_path
        cloud_init_iso) = some (toString cpus) := by
  have hdigitsM : ∀ c ∈ (toString (memory_mb * 1024)).data, c ≠ '<' :=
    toString_nat_no_lt _
  have hdigitsC : ∀ c ∈ (toString cpus).data, c ≠ '<' :=
    toString_nat_no_lt _
  refine ⟨?_, ?_, ?_⟩
  · intro n2 m2 c2 d2 i2 h1 h2 h3 h4 h5
    subst h1; subst h2; subst h3; subst h4; subst h5
    rfl
  · unfold memoryValue tagValue generate_domain_xml
    simp only [string_data_append, List.append_assoc]
    rw [scan_head, skip_name_close name.data _ hname, scan_name_close,
      Option.some_bind, scan_memory_tag, Option.map_some']
    simp only [List.cons_append]
    rw [takeWhile_until_lt (toString (memory_mb * 1024)).data hdigitsM _]
  · unfold vcpuValue tagValue generate_domain_xml
    simp only [string_data_append, List.append_assoc]
    rw [scan_head, skip_name_close name.data _ hname, scan_name_close,
      Option.some_bind, scan_vcpu_skip,
      skip_vcpu (toString (memory_mb * 1024)).data _ hdigitsM,
      scan_vcpu_tag, Option.map_some']
    simp only [List.cons_append]
    rw [takeWhile_until_lt (toString cpus).data hdigitsC _]

/-- C3 witness: concrete values — name `x`, 2048 MiB, 2 vcpus. -/
theorem generate_domain_xml_values_witness :
    memoryValue (generate_domain_xml "x" 2048 2 "/d/disk.qcow2"
        "/d/seed.iso") = some "2097152" ∧
    vcpuValue (generate_domain_xml "x" 2048 2 "/d/disk.qcow2"
        "/d/seed.iso") = some "2" := by
  have h := generate_domain_xml_values "x" 2048 2 "/d/disk.qcow2"
    "/d/seed.iso" (by decide)
  exact ⟨h.2.1, h.2.2⟩

end Vmt
